import Mathlib

/-!
Verification of the TUI process/syscall inspector core (src/main.rs).

Strings are modelled as `List Char`. The Rust `HashSet<String>` is modelled
as a `List (List Char)` whose order stands for the set's (unspecified)
iteration order; membership gives the set semantics. The event loop
`run_app` is modelled as a step function over an explicit `App` state,
with the nondeterministic environment (process-directory snapshots, spawn
success, lines arriving on the channel, child exit) passed in as an `Env`
value per step. `strace_receiver` carries the channel's buffered lines.
A ghost counter `liveSubprocs` counts spawned-and-not-yet-reaped external
tracing subprocesses: `start_strace` increments it, `stop_strace`
decrements it when a child handle was held (kill + wait reaps it).
-/

abbrev Str := List Char

/-- Model of Rust `str::trim`: drop whitespace from both ends. -/
def trim (l : Str) : Str :=
  ((l.dropWhile Char.isWhitespace).reverse.dropWhile Char.isWhitespace).reverse

/-- Model of `parse_syscall` (src/main.rs lines 345-354): trim the line;
return `none` if empty or the first character is not alphabetic; otherwise
return the text before the first `(`, or `none` when there is no `(`. -/
def parse_syscall (line : Str) : Option Str :=
  match trim line with
  | [] => none
  | c :: rest =>
    if c.isAlpha then
      if '(' ∈ (c :: rest : Str) then
        some ((c :: rest).takeWhile (fun x => x ≠ '('))
      else none
    else none

/-- Model of `ProcessInfo` (src/main.rs lines 33-38). -/
structure ProcessInfo where
  pid : Int
  name : Str
  cmd : Str
deriving DecidableEq

/-- Model of `AppMode` (src/main.rs lines 41-44). -/
inductive AppMode where
  | ProcessSelection
  | SyscallMonitoring
deriving DecidableEq

/-- Model of `App` (src/main.rs lines 47-69). `strace_receiver` holds the
channel's currently buffered lines; `liveSubprocs` is a ghost count of
spawned-and-unreaped tracing subprocesses. The fuzzy matcher is kept
outside the state and passed to the functions that use it. -/
structure App where
  mode : AppMode
  processes : List ProcessInfo
  filtered_processes : List ProcessInfo
  process_filter : Str
  selected_process : Nat
  target_pid : Int
  target_process_name : Str
  unique_syscalls : List Str
  syscall_log : List Str
  filter_mode : Bool
  syscall_filter : Str
  filtered_syscalls : List Str
  strace_child : Option Unit
  strace_receiver : Option (List Str)
  liveSubprocs : Nat
deriving DecidableEq

/-- Per-step environment inputs: the process-directory snapshot that
`App::get_processes` would return, whether `Command::spawn` succeeds,
the lines the background reader has pushed into the channel since the
last step, and whether `child.try_wait()` reports the child exited. -/
structure Env where
  newProcs : List ProcessInfo
  spawnOk : Bool
  newLines : List Str
  childExited : Bool

/-- Abstract key codes of the events `run_app` reacts to. -/
inductive KeyCode where
  | char (c : Char)
  | backspace
  | up
  | down
  | enter
  | esc
  | other
deriving DecidableEq

/-- An event delivered to the loop body: a key press or a tick. -/
inductive Event where
  | key (k : KeyCode)
  | tick

/-- Outcome of one loop-body step: a new state, a normal return from
`run_app` (quit), or a fatal abort of the whole loop (Rust panic). -/
inductive StepResult where
  | ok (app : App)
  | quit
  | fatal
deriving DecidableEq

/-- Whether the first list is a prefix of the second (Boolean test). -/
def strStarts : Str → Str → Bool
  | [], _ => true
  | _ :: _, [] => false
  | p :: ps, h :: hs => (p == h) && strStarts ps hs

/-- Whether `pat` occurs contiguously inside the second list. -/
def strHasSub (pat : Str) : Str → Bool
  | [] => strStarts pat []
  | h :: hs => strStarts pat (h :: hs) || strHasSub pat hs

/-- Case-insensitive substring test used by the process filter
(`to_lowercase().contains(...)`). -/
def strContains (hay pat : Str) : Bool :=
  strHasSub (pat.map Char.toLower) (hay.map Char.toLower)

/-- Model of `App::update_filtered_processes` (src/main.rs lines 110-127):
empty filter keeps the whole snapshot; otherwise keep processes whose name
or command line contains the filter (case-insensitive); reset the cursor
to 0 when it fell out of bounds. -/
def update_filtered_processes (app : App) : App :=
  let fp := if app.process_filter.isEmpty then app.processes
            else app.processes.filter
              (fun p => strContains p.name app.process_filter
                        || strContains p.cmd app.process_filter)
  let sel := if fp.length ≤ app.selected_process then 0 else app.selected_process
  { app with filtered_processes := fp, selected_process := sel }

/-- A fuzzy matcher: candidate, then query, to an optional score. Models
`SkimMatcherV2::fuzzy_match`, left abstract as in the library boundary. -/
abbrev Matcher := Str → Str → Option Int

/-- The scored candidates `(score, name)` built by the `filter_map` in
`App::update_filtered_syscalls`. -/
def scoredMembers (matcher : Matcher) (set : List Str) (query : Str) :
    List (Int × Str) :=
  set.filterMap (fun s => (matcher s query).map (fun score => (score, s)))

/-- Model of `App::update_filtered_syscalls` (src/main.rs lines 130-143):
empty query yields the whole set in iteration order; otherwise score the
members, drop non-matches, and sort by descending score (stable sort,
as Rust `sort_by` with comparator `b.0.cmp(&a.0)`). -/
def update_filtered_syscalls (matcher : Matcher) (app : App) : App :=
  if app.syscall_filter.isEmpty then
    { app with filtered_syscalls := app.unique_syscalls }
  else
    { app with filtered_syscalls :=
        ((scoredMembers matcher app.unique_syscalls app.syscall_filter).mergeSort
          (fun a b => b.1 ≤ a.1)).map Prod.snd }

/-- Model of `App::start_strace` (src/main.rs lines 146-171): on spawn
success, store the child handle and a fresh channel; on spawn failure the
`.expect(...)` panics, aborting the loop fatally. -/
def start_strace (app : App) (env : Env) : StepResult :=
  if env.spawnOk then
    .ok { app with
          strace_child := some (),
          strace_receiver := some [],
          liveSubprocs := app.liveSubprocs + 1 }
  else .fatal

/-- Model of `App::stop_strace` (src/main.rs lines 174-180): if a child
handle is held, kill and reap it; drop the receiver. -/
def stop_strace (app : App) : App :=
  { app with
    strace_child := none,
    strace_receiver := none,
    liveSubprocs := if app.strace_child.isSome
                    then app.liveSubprocs - 1 else app.liveSubprocs }

/-- One iteration of the ingestion loop body (src/main.rs lines 320-326):
parse the line; on success insert into the set and, when newly inserted,
append to the ordered log. State is the pair (unique_syscalls, syscall_log). -/
def ingestLine (st : List Str × List Str) (line : Str) : List Str × List Str :=
  match parse_syscall line with
  | none => st
  | some name =>
    if name ∈ st.1 then st else (name :: st.1, st.2 ++ [name])

/-- Ingest a batch of raw lines in order (the `while let Ok(line)` drain). -/
def ingestLines (st : List Str × List Str) (lines : List Str) :
    List Str × List Str :=
  lines.foldl ingestLine st

/-- The shared teardown of `back`/`kill`/target-exit: stop the tracer,
return to Selection, re-snapshot the process list, re-filter. -/
def teardownToSelection (app : App) (env : Env) : App :=
  update_filtered_processes
    { stop_strace app with
      mode := AppMode.ProcessSelection,
      processes := env.newProcs }

/-- Selection-screen key handling (src/main.rs lines 232-267). -/
def selectionKey (app : App) (k : KeyCode) (env : Env) : StepResult :=
  match k with
  | .char c =>
    if c = 'q' then .quit
    else .ok (update_filtered_processes
      { app with process_filter := app.process_filter ++ [c] })
  | .backspace =>
    .ok (update_filtered_processes
      { app with process_filter := app.process_filter.dropLast })
  | .down =>
    .ok (if app.selected_process + 1 < app.filtered_processes.length
         then { app with selected_process := app.selected_process + 1 }
         else app)
  | .up =>
    .ok (if 0 < app.selected_process
         then { app with selected_process := app.selected_process - 1 }
         else app)
  | .enter =>
    if app.filtered_processes.isEmpty then .ok app
    else
      match app.filtered_processes[app.selected_process]? with
      | none => .fatal
      | some proc =>
        start_strace
          { app with
            target_pid := proc.pid,
            target_process_name := proc.name,
            mode := AppMode.SyscallMonitoring,
            unique_syscalls := [],
            syscall_log := [],
            filter_mode := false,
            syscall_filter := [],
            filtered_syscalls := [] } env
  | _ => .ok app

/-- Monitoring-screen key handling while filter mode is active
(src/main.rs lines 269-285). -/
def filterKey (matcher : Matcher) (app : App) (k : KeyCode) : StepResult :=
  match k with
  | .char c =>
    .ok (update_filtered_syscalls matcher
      { app with syscall_filter := app.syscall_filter ++ [c] })
  | .backspace =>
    .ok (update_filtered_syscalls matcher
      { app with syscall_filter := app.syscall_filter.dropLast })
  | .enter => .ok { app with filter_mode := false, syscall_filter := [] }
  | .esc => .ok { app with filter_mode := false, syscall_filter := [] }
  | _ => .ok app

/-- Monitoring-screen key handling while filter mode is off
(src/main.rs lines 286-309). The `k` key also sends SIGKILL to the
target, an external effect outside the state. -/
def liveKey (matcher : Matcher) (app : App) (k : KeyCode) (env : Env) :
    StepResult :=
  match k with
  | .char c =>
    if c = 'q' ∨ c = 'b' then .ok (teardownToSelection app env)
    else if c = 'k' then .ok (teardownToSelection app env)
    else if c = 'f' then
      .ok (update_filtered_syscalls matcher { app with filter_mode := true })
    else .ok app
  | _ => .ok app

/-- Key handling of the loop body (src/main.rs lines 231-311). -/
def keyStep (matcher : Matcher) (app : App) (k : KeyCode) (env : Env) :
    StepResult :=
  match app.mode with
  | .ProcessSelection => selectionKey app k env
  | .SyscallMonitoring =>
    if app.filter_mode then filterKey matcher app k
    else liveKey matcher app k env

/-- Lines the background reader pushed since the last step join the
channel buffer, when a receiver exists. -/
def arriveLines (app : App) (env : Env) : App :=
  match app.strace_receiver with
  | some buf => { app with strace_receiver := some (buf ++ env.newLines) }
  | none => app

/-- The per-tick ingestion (src/main.rs lines 318-328): skipped entirely
in filter mode; otherwise the whole channel buffer is drained and
ingested. -/
def drainIngest (app : App) : App :=
  if app.filter_mode then app
  else
    match app.strace_receiver with
    | some buf =>
      let st := ingestLines (app.unique_syscalls, app.syscall_log) buf
      { app with
        unique_syscalls := st.1,
        syscall_log := st.2,
        strace_receiver := some [] }
    | none => app

/-- The per-tick child-exit check (src/main.rs lines 329-337). -/
def checkExit (app : App) (env : Env) : App :=
  if app.strace_child.isSome && env.childExited
  then teardownToSelection app env
  else app

/-- Tick handling of the loop body (src/main.rs lines 316-340). Arriving
lines join the buffer; in Monitoring mode the buffer is drained and
ingested unless filter mode is on, then the child-exit check runs. In
Selection mode the tick changes nothing. -/
def tickStep (app : App) (env : Env) : App :=
  let app1 := arriveLines app env
  match app1.mode with
  | .ProcessSelection => app1
  | .SyscallMonitoring => checkExit (drainIngest app1) env

/-- One step of the event loop body. -/
def step (matcher : Matcher) (app : App) (ev : Event) (env : Env) :
    StepResult :=
  match ev with
  | .key k => keyStep matcher app k env
  | .tick => .ok (tickStep app env)

/-- Model of `App::new` (src/main.rs lines 72-91) given the snapshot
`App::get_processes` returned. -/
def initApp (procs : List ProcessInfo) : App :=
  { mode := AppMode.ProcessSelection,
    processes := procs,
    filtered_processes := procs,
    process_filter := [],
    selected_process := 0,
    target_pid := 0,
    target_process_name := [],
    unique_syscalls := [],
    syscall_log := [],
    filter_mode := false,
    syscall_filter := [],
    filtered_syscalls := [],
    strace_child := none,
    strace_receiver := none,
    liveSubprocs := 0 }

/-- States reachable by the event loop from startup. -/
inductive Reachable (matcher : Matcher) : App → Prop where
  | start (procs : List ProcessInfo) : Reachable matcher (initApp procs)
  | next (app : App) (ev : Event) (env : Env) (app' : App) :
      Reachable matcher app → step matcher app ev env = .ok app' →
      Reachable matcher app'

/-- First-occurrence deduplication relative to an already-seen set: the
subsequence of `names` keeping each name's first occurrence, skipping
names already in `seen`. -/
def dedupFirst (seen : List Str) : List Str → List Str
  | [] => []
  | n :: rest =>
    if n ∈ seen then dedupFirst seen rest
    else n :: dedupFirst (n :: seen) rest

/-- Fold names into the membership set exactly as `ingestLine` does. -/
def addAll (uniq : List Str) (names : List Str) : List Str :=
  names.foldl (fun u n => if n ∈ u then u else n :: u) uniq

/-- The raw strace line used by the spec's parsing scenario. -/
def sampleLine : Str := "openat(AT_FDCWD, \"/etc/passwd\", O_RDONLY) = 3".toList

/-- A matcher that matches nothing, used to instantiate examples. -/
def noMatcher : Matcher := fun _ _ => none

/-- A concrete process record for examples. -/
def procA : ProcessInfo := ⟨7, "bash".toList, "/bin/bash".toList⟩

/-- A concrete environment: empty snapshot, spawn succeeds, no new lines,
child has not exited. -/
def envNil : Env := ⟨[], true, [], false⟩

/-- A concrete environment where spawning the tracing tool fails. -/
def envNoSpawn : Env := ⟨[], false, [], false⟩

/-- A concrete Selection-mode state listing one process. -/
def appSel : App := initApp [procA]

/-- A concrete Monitoring-mode state with filter mode active and a
non-empty ranked-results sequence. -/
def appFilterActive : App :=
  { initApp [procA] with
    mode := AppMode.SyscallMonitoring,
    target_pid := 7,
    filter_mode := true,
    syscall_filter := ['r'],
    unique_syscalls := ["read".toList],
    syscall_log := ["read".toList],
    filtered_syscalls := ["read".toList],
    strace_child := some (),
    strace_receiver := some [],
    liveSubprocs := 1 }

/-- The score the matcher assigns to a name, defaulting to 0; on names
that did match, this is exactly the matcher's score. -/
def scoreOf (matcher : Matcher) (query : Str) (s : Str) : Int :=
  (matcher s query).getD 0

/-- Iterate the tick handler over a sequence of per-tick environments. -/
def ticks (app : App) (envs : List Env) : App :=
  envs.foldl tickStep app

/-- The session invariant: in Selection mode no child handle and no
receiver exist; in Monitoring mode both exist; the ghost count of live
(unreaped) tracing subprocesses equals 1 exactly when a child handle is
held — so it never exceeds one. -/
def SessionInv (app : App) : Prop :=
  (app.mode = AppMode.ProcessSelection →
    app.strace_child = none ∧ app.strace_receiver = none)
  ∧ (app.mode = AppMode.SyscallMonitoring →
      app.strace_child = some () ∧ ∃ buf, app.strace_receiver = some buf)
  ∧ app.liveSubprocs = (if app.strace_child.isSome then 1 else 0)

lemma mem_dropWhile_iff {p : Char → Bool} {a : Char} (h : p a = false) :
    ∀ l : Str, a ∈ l.dropWhile p ↔ a ∈ l := by
  intro l
  induction l with
  | nil => simp
  | cons x xs ih =>
    by_cases hx : p x
    · rw [List.dropWhile_cons_of_pos hx]
      rw [ih]
      constructor
      · intro hm; exact List.mem_cons_of_mem _ hm
      · intro hm
        rcases List.mem_cons.mp hm with h1 | h1
        · subst h1; rw [h] at hx; exact absurd hx (by simp)
        · exact h1
    · rw [List.dropWhile_cons_of_neg hx]

lemma mem_trim_iff {a : Char} (h : a.isWhitespace = false) (l : Str) :
    a ∈ trim l ↔ a ∈ l := by
  unfold trim
  rw [List.mem_reverse, mem_dropWhile_iff h, List.mem_reverse, mem_dropWhile_iff h]

lemma paren_mem_trim (l : Str) : '(' ∈ trim l ↔ '(' ∈ l :=
  mem_trim_iff (by decide) l

/-- C4: `parse_syscall L` is `none` iff the trimmed line is empty, or its
first character is not alphabetic, or the line contains no `(`; otherwise
it returns exactly the trimmed text before the first `(`. The scenario
line `openat(AT_FDCWD, "/etc/passwd", O_RDONLY) = 3` parses to `openat`. -/
theorem C4_parse_characterization :
    (∀ L : Str,
      (parse_syscall L = none ↔
        trim L = [] ∨ (∃ c t, trim L = c :: t ∧ c.isAlpha = false) ∨ '(' ∉ L)
      ∧ (∀ r, parse_syscall L = some r →
          r = (trim L).takeWhile (fun x => x ≠ '(')))
    ∧ parse_syscall sampleLine = some ("openat".toList) := by
  constructor
  · intro L
    have hp := paren_mem_trim L
    constructor
    · unfold parse_syscall
      cases h : trim L with
      | nil => simp [h]
      | cons c rest =>
        rw [← hp, h]
        by_cases ha : c.isAlpha
        · by_cases hm : '(' ∈ (c :: rest : Str)
          · simp [ha, hm, h]
          · simp [ha, hm, h]
        · simp [ha, h, Bool.not_eq_true] at *
    · intro r hr
      unfold parse_syscall at hr
      cases h : trim L with
      | nil => rw [h] at hr; simp at hr
      | cons c rest =>
        rw [h] at hr
        by_cases ha : c.isAlpha
        · by_cases hm : '(' ∈ (c :: rest : Str)
          · simp [ha, hm] at hr
            simpa using hr.symm
          · simp [ha, hm] at hr
        · simp [ha] at hr
  · decide

/-- Witness for C4: the positive branch applied at the scenario line. -/
theorem C4_witness :
    ("openat".toList : Str) = (trim sampleLine).takeWhile (fun x => x ≠ '(') :=
  (C4_parse_characterization.1 sampleLine).2 ("openat".toList)
    C4_parse_characterization.2

lemma ingestLines_eq (lines : List Str) : ∀ uniq log : List Str,
    ingestLines (uniq, log) lines =
      (addAll uniq (lines.filterMap parse_syscall),
       log ++ dedupFirst uniq (lines.filterMap parse_syscall)) := by
  induction lines with
  | nil =>
    intro uniq log
    simp [ingestLines, addAll, dedupFirst]
  | cons l rest ih =>
    intro uniq log
    cases hp : parse_syscall l with
    | none =>
      have h1 : ingestLines (uniq, log) (l :: rest) = ingestLines (uniq, log) rest := by
        simp [ingestLines, ingestLine, hp]
      rw [h1, List.filterMap_cons_none hp]
      exact ih uniq log
    | some n =>
      rw [List.filterMap_cons_some hp]
      by_cases hn : n ∈ uniq
      · have h1 : ingestLines (uniq, log) (l :: rest) = ingestLines (uniq, log) rest := by
          simp [ingestLines, ingestLine, hp, hn]
        rw [h1, ih uniq log]
        simp [addAll, dedupFirst, hn]
      · have h1 : ingestLines (uniq, log) (l :: rest)
            = ingestLines (n :: uniq, log ++ [n]) rest := by
          simp [ingestLines, ingestLine, hp, hn]
        rw [h1, ih (n :: uniq) (log ++ [n])]
        simp [addAll, dedupFirst, hn]

lemma dedupFirst_nodup (names : List Str) : ∀ seen,
    (dedupFirst seen names).Nodup ∧ ∀ x ∈ dedupFirst seen names, x ∉ seen := by
  induction names with
  | nil => intro seen; simp [dedupFirst]
  | cons n rest ih =>
    intro seen
    by_cases hn : n ∈ seen
    · simpa [dedupFirst, hn] using ih seen
    · have ihn := ih (n :: seen)
      rw [dedupFirst, if_neg hn]
      refine ⟨List.nodup_cons.mpr ⟨?_, ihn.1⟩, ?_⟩
      · intro hmem
        exact (ihn.2 n hmem) (List.mem_cons_self n seen)
      · intro x hx
        rcases List.mem_cons.mp hx with h1 | h1
        · subst h1; exact hn
        · intro hxs
          exact (ihn.2 x h1) (List.mem_cons_of_mem n hxs)

/-- C5: ingesting a syscall name already present in the set leaves both
the set and the ordered log unchanged; starting from an empty session,
the ordered log equals the first-occurrence sequence of the successfully
parsed names, independent of repeats, and it never holds duplicates. -/
theorem C5_ingestion_idempotent_ordered :
    (∀ st line name, parse_syscall line = some name → name ∈ st.1 →
      ingestLine st line = st)
    ∧ (∀ lines : List Str,
        (ingestLines ([], []) lines).2 =
          dedupFirst [] (lines.filterMap parse_syscall))
    ∧ ∀ lines : List Str, ((ingestLines ([], []) lines).2).Nodup := by
  refine ⟨?_, ?_, ?_⟩
  · intro st line name hp hm
    simp [ingestLine, hp, hm]
  · intro lines
    rw [ingestLines_eq lines [] []]
    simp
  · intro lines
    rw [ingestLines_eq lines [] []]
    simpa using (dedupFirst_nodup (lines.filterMap parse_syscall) []).1

/-- Witness for C5: re-ingesting an already-seen name is a no-op on a
concrete state. -/
theorem C5_witness :
    ingestLine (["read".toList], ["read".toList]) ("read(3) = 42".toList)
      = (["read".toList], ["read".toList]) :=
  C5_ingestion_idempotent_ordered.1
    (["read".toList], ["read".toList]) ("read(3) = 42".toList)
    ("read".toList) (by decide) (by decide)

/-- C9: `stop_strace` on an already-stopped session is a no-op, two
consecutive stops equal one stop, and after `stop_strace` no child handle
and no receiver remain. -/
theorem C9_stop_idempotent :
    (∀ app : App, app.strace_child = none → app.strace_receiver = none →
      stop_strace app = app)
    ∧ (∀ app : App, stop_strace (stop_strace app) = stop_strace app)
    ∧ ∀ app : App, (stop_strace app).strace_child = none
        ∧ (stop_strace app).strace_receiver = none := by
  refine ⟨?_, ?_, ?_⟩
  · intro app h1 h2
    cases app
    simp_all [stop_strace]
  · intro app
    simp [stop_strace]
  · intro app
    simp [stop_strace]

/-- Witness for C9: stopping the freshly started application (which holds
no session) changes nothing. -/
theorem C9_witness : stop_strace (initApp []) = initApp [] :=
  C9_stop_idempotent.1 (initApp []) rfl rfl

/-- C10: pressing Enter in Selection mode while the filtered process list
is empty leaves the entire state unchanged: no mode change, no spawn, no
field mutated. -/
theorem C10_enter_on_empty_list_noop (matcher : Matcher) (app : App)
    (env : Env) (h1 : app.mode = AppMode.ProcessSelection)
    (h2 : app.filtered_processes = []) :
    step matcher app (.key .enter) env = .ok app := by
  simp [step, keyStep, selectionKey, h1, h2]

/-- Witness for C10: Enter on the empty initial state is a no-op. -/
theorem C10_witness :
    step noMatcher (initApp []) (.key .enter) envNil = .ok (initApp []) :=
  C10_enter_on_empty_list_noop noMatcher (initApp []) envNil rfl rfl

/-- Counterexample for C1: in a Selection state with one listed process,
selecting it while the tracing tool cannot be launched aborts the loop
fatally (the `.expect(...)` panic); the Selection state is not re-entered
and no error value is surfaced into the state machine. -/
theorem C1_counterexample :
    step noMatcher appSel (.key .enter) envNoSpawn = StepResult.fatal := by
  decide

/-- C1 amended: whenever a process is selected (Enter on a valid cursor in
Selection mode) and spawning the tracing tool fails, the loop body aborts
fatally instead of returning to Selection. -/
theorem C1_spawn_failure_is_fatal (matcher : Matcher) (app : App) (env : Env)
    (h1 : app.mode = AppMode.ProcessSelection)
    (h2 : app.selected_process < app.filtered_processes.length)
    (h3 : env.spawnOk = false) :
    step matcher app (.key .enter) env = StepResult.fatal := by
  have h4 : app.filtered_processes ≠ [] := by
    intro hnil
    rw [hnil] at h2
    simp at h2
  simp [step, keyStep, selectionKey, h1, h4, start_strace, h3]
  split <;> rfl

/-- Witness for C1 amended: the concrete failing selection. -/
theorem C1_witness :
    step noMatcher appSel (.key .enter) envNoSpawn = StepResult.fatal :=
  C1_spawn_failure_is_fatal noMatcher appSel envNoSpawn rfl (by decide) rfl

/-- Counterexample for C2: a tick in a Selection state whose snapshot
differs from the directory's current snapshot leaves the stale snapshot
in place — no refresh happens. -/
theorem C2_counterexample :
    step noMatcher appSel .tick envNil = .ok appSel
    ∧ appSel.processes ≠ envNil.newProcs := by
  constructor
  · decide
  · decide

/-- C2 amended: a tick received in the Selection state (where no trace
session and hence no receiver exists) leaves the application state
entirely unchanged: no snapshot refresh, no re-filtering, no cursor
clamping. -/
theorem C2_selection_tick_noop (matcher : Matcher) (app : App) (env : Env)
    (h1 : app.mode = AppMode.ProcessSelection)
    (h2 : app.strace_receiver = none) :
    step matcher app .tick env = .ok app := by
  simp [step, tickStep, arriveLines, h1, h2]

/-- Witness for C2 amended: tick on the concrete Selection state. -/
theorem C2_witness :
    step noMatcher appSel .tick envNil = .ok appSel :=
  C2_selection_tick_noop noMatcher appSel envNil rfl rfl

/-- Counterexample for C3: leaving filter mode via Enter clears the
active flag and the query text but leaves the ranked-results sequence
untouched (here still `[read]`, not cleared). -/
theorem C3_counterexample :
    step noMatcher appFilterActive (.key .enter) envNil
      = .ok { appFilterActive with filter_mode := false, syscall_filter := [] }
    ∧ ({ appFilterActive with
         filter_mode := false, syscall_filter := [] } : App).filtered_syscalls
        ≠ [] := by
  constructor
  · decide
  · decide

/-- C3 amended: the confirmOrCancel transition clears only the active
flag and the query text, leaving the ranked results unchanged; starting a
new trace session clears the whole FilterState (flag, query, ranked
results) together with the syscall set and log. -/
theorem C3_filter_state_clearing (matcher : Matcher) :
    (∀ (app : App) (k : KeyCode), app.mode = AppMode.SyscallMonitoring →
      app.filter_mode = true → (k = KeyCode.enter ∨ k = KeyCode.esc) →
      ∀ env, step matcher app (.key k) env =
        .ok { app with filter_mode := false, syscall_filter := [] })
    ∧ ∀ (app : App) (env : Env) (app' : App),
        app.mode = AppMode.ProcessSelection →
        step matcher app (.key .enter) env = .ok app' →
        app' = app ∨ (app'.filter_mode = false ∧ app'.syscall_filter = []
          ∧ app'.filtered_syscalls = [] ∧ app'.unique_syscalls = []
          ∧ app'.syscall_log = [] ∧ app'.strace_receiver = some []) := by
  constructor
  · intro app k h1 h2 hk env
    rcases hk with rfl | rfl <;> simp [step, keyStep, filterKey, h1, h2]
  · intro app env app' h1 hr
    simp only [step, keyStep, h1] at hr
    by_cases he : app.filtered_processes.isEmpty
    · simp [selectionKey, he] at hr
      exact Or.inl hr.symm
    · cases hg : app.filtered_processes[app.selected_process]? with
      | none => simp [selectionKey, he, hg] at hr
      | some proc =>
        by_cases hs : env.spawnOk
        · simp [selectionKey, he, hg, start_strace, hs] at hr
          subst hr
          right
          simp
        · simp [selectionKey, he, hg, start_strace, hs] at hr

/-- Witness for C3 amended: Enter leaves filter mode on the concrete
filter-active state. -/
theorem C3_witness :
    step noMatcher appFilterActive (.key .enter) envNil
      = .ok { appFilterActive with
              filter_mode := false, syscall_filter := [] } :=
  (C3_filter_state_clearing noMatcher).1 appFilterActive KeyCode.enter
    rfl rfl (Or.inl rfl) envNil

lemma count_one_of_nodup {l : List Str} {s : Str}
    (hnd : l.Nodup) (hs : s ∈ l) : l.count s = 1 := by
  induction l with
  | nil => cases hs
  | cons x xs ih =>
    rcases List.mem_cons.mp hs with rfl | h1
    · rw [List.count_cons_self]
      have hx : s ∉ xs := (List.nodup_cons.mp hnd).1
      rw [List.count_eq_zero.mpr hx]
    · have hx : x ∉ xs := (List.nodup_cons.mp hnd).1
      have hne : s ≠ x := fun he => hx (he ▸ h1)
      rw [List.count_cons_of_ne hne]
      exact ih (List.nodup_cons.mp hnd).2 h1

lemma scoredMembers_mem {matcher : Matcher} {set : List Str} {q : Str}
    {p : Int × Str} (hp : p ∈ scoredMembers matcher set q) :
    matcher p.2 q = some p.1 ∧ p.2 ∈ set := by
  unfold scoredMembers at hp
  rcases List.mem_filterMap.mp hp with ⟨s, hs, hmap⟩
  cases hm : matcher s q with
  | none => rw [hm] at hmap; simp at hmap
  | some sc =>
    rw [hm] at hmap
    obtain rfl : (sc, s) = p := by simpa using hmap
    exact ⟨hm, hs⟩

/-- C6: with an empty query the search returns every member of the set
exactly once; with a query matching no member it returns the empty
sequence; with a non-empty query, every result is a member with a defined
match score and the results are ordered by non-increasing score. -/
theorem C6_search_semantics (matcher : Matcher) (app : App)
    (hnd : app.unique_syscalls.Nodup) :
    (app.syscall_filter = [] →
      (update_filtered_syscalls matcher app).filtered_syscalls
        = app.unique_syscalls
      ∧ ∀ s ∈ app.unique_syscalls,
          ((update_filtered_syscalls matcher app).filtered_syscalls).count s
            = 1)
    ∧ (app.syscall_filter ≠ [] →
        (∀ s ∈ app.unique_syscalls, matcher s app.syscall_filter = none) →
        (update_filtered_syscalls matcher app).filtered_syscalls = [])
    ∧ (app.syscall_filter ≠ [] →
        (∀ s ∈ (update_filtered_syscalls matcher app).filtered_syscalls,
          s ∈ app.unique_syscalls ∧ (matcher s app.syscall_filter).isSome)
        ∧ ((update_filtered_syscalls matcher app).filtered_syscalls).Pairwise
            (fun a b => scoreOf matcher app.syscall_filter b
              ≤ scoreOf matcher app.syscall_filter a)) := by
  refine ⟨?_, ?_, ?_⟩
  · intro hq
    have hqe : app.syscall_filter.isEmpty = true := by
      rw [hq]; rfl
    constructor
    · simp [update_filtered_syscalls, hqe]
    · intro s hs
      simp only [update_filtered_syscalls, hqe, if_pos]
      exact count_one_of_nodup hnd hs
  · intro hq hall
    have hqe : app.syscall_filter.isEmpty = false := by
      cases hqc : app.syscall_filter with
      | nil => exact absurd hqc hq
      | cons c cs => rfl
    have hsm : scoredMembers matcher app.unique_syscalls app.syscall_filter
        = [] := by
      unfold scoredMembers
      rw [List.filterMap_eq_nil_iff]
      intro s hs
      rw [hall s hs]
      rfl
    simp [update_filtered_syscalls, hqe, hsm]
  · intro hq
    have hqe : app.syscall_filter.isEmpty = false := by
      cases hqc : app.syscall_filter with
      | nil => exact absurd hqc hq
      | cons c cs => rfl
    have hperm :=
      List.mergeSort_perm
        (scoredMembers matcher app.unique_syscalls app.syscall_filter)
        (fun a b => b.1 ≤ a.1)
    constructor
    · intro s hs
      simp only [update_filtered_syscalls, hqe, Bool.false_eq_true,
        if_false] at hs
      rcases List.mem_map.mp hs with ⟨p, hp, rfl⟩
      have hp' := scoredMembers_mem (hperm.mem_iff.mp hp)
      exact ⟨hp'.2, by rw [hp'.1]; rfl⟩
    · have hsorted :=
        @List.sorted_mergeSort (Int × Str)
          (fun a b => decide (b.1 ≤ a.1))
          (by intro a b c h1 h2
              simp only [decide_eq_true_eq] at *
              exact le_trans h2 h1)
          (by intro a b
              simp only [Bool.or_eq_true, decide_eq_true_eq]
              exact le_total b.1 a.1)
          (scoredMembers matcher app.unique_syscalls app.syscall_filter)
      simp only [update_filtered_syscalls, hqe, Bool.false_eq_true, if_false]
      rw [List.pairwise_map]
      refine List.Pairwise.imp_of_mem ?_ hsorted
      intro a b ha hb hab
      have ha' := scoredMembers_mem (hperm.mem_iff.mp ha)
      have hb' := scoredMembers_mem (hperm.mem_iff.mp hb)
      unfold scoreOf
      rw [ha'.1, hb'.1]
      simpa using hab

/-- Witness for C6: a non-empty query against a matcher that matches
nothing yields the empty result on a concrete state. -/
theorem C6_witness :
    (update_filtered_syscalls noMatcher appFilterActive).filtered_syscalls
      = [] :=
  (C6_search_semantics noMatcher appFilterActive (by decide)).2.1
    (by decide) (fun s _ => rfl)

lemma tick_filter_active (app : App) (env : Env) (buf : List Str)
    (h1 : app.mode = AppMode.SyscallMonitoring)
    (h2 : app.filter_mode = true)
    (h3 : app.strace_receiver = some buf)
    (h4 : env.childExited = false) :
    tickStep app env =
      { app with strace_receiver := some (buf ++ env.newLines) } := by
  unfold tickStep arriveLines drainIngest checkExit
  rw [h3]
  simp [h1, h2, h4]

lemma tick_ingests (app : App) (env : Env) (buf : List Str)
    (h1 : app.mode = AppMode.SyscallMonitoring)
    (h2 : app.filter_mode = false)
    (h3 : app.strace_receiver = some buf)
    (h4 : env.childExited = false) :
    tickStep app env =
      { app with
        unique_syscalls :=
          (ingestLines (app.unique_syscalls, app.syscall_log)
            (buf ++ env.newLines)).1,
        syscall_log :=
          (ingestLines (app.unique_syscalls, app.syscall_log)
            (buf ++ env.newLines)).2,
        strace_receiver := some [] } := by
  unfold tickStep arriveLines drainIngest checkExit
  rw [h3]
  simp [h1, h2, h4]

lemma tick_selection (app : App) (env : Env)
    (h1 : app.mode = AppMode.ProcessSelection)
    (h2 : app.strace_receiver = none) :
    tickStep app env = app := by
  unfold tickStep arriveLines
  rw [h2]
  simp [h1]

lemma ticks_filter_active (envs : List Env) : ∀ (app : App) (buf : List Str),
    app.mode = AppMode.SyscallMonitoring → app.filter_mode = true →
    app.strace_receiver = some buf →
    (∀ e ∈ envs, e.childExited = false) →
    ticks app envs =
      { app with
        strace_receiver := some (buf ++ (envs.map Env.newLines).flatten) } := by
  induction envs with
  | nil =>
    intro app buf h1 h2 h3 h4
    cases app
    simp_all [ticks]
  | cons e rest ih =>
    intro app buf h1 h2 h3 h4
    have he : e.childExited = false := h4 e (List.mem_cons_self e rest)
    have hstep := tick_filter_active app e buf h1 h2 h3 he
    have hdef : ticks app (e :: rest) = ticks (tickStep app e) rest := rfl
    rw [hdef, hstep,
      ih { app with strace_receiver := some (buf ++ e.newLines) }
        (buf ++ e.newLines) h1 h2 rfl
        (fun e' he' => h4 e' (List.mem_cons_of_mem _ he'))]
    simp

/-- C8: across any run of ticks in Monitoring mode with filter mode
active and the target still alive, the syscall set and the ordered log
are never mutated while every arriving line accumulates in the channel
buffer; exiting filter mode keeps the buffer and the set/log intact; and
a subsequent tick with filter mode off ingests the entire buffer plus any
newly arrived lines in one batch, emptying the channel. -/
theorem C8_filter_pauses_ingestion :
    (∀ (envs : List Env) (app : App) (buf : List Str),
      app.mode = AppMode.SyscallMonitoring → app.filter_mode = true →
      app.strace_receiver = some buf →
      (∀ e ∈ envs, e.childExited = false) →
      (ticks app envs).unique_syscalls = app.unique_syscalls
      ∧ (ticks app envs).syscall_log = app.syscall_log
      ∧ (ticks app envs).strace_receiver
          = some (buf ++ (envs.map Env.newLines).flatten))
    ∧ (∀ (matcher : Matcher) (app : App) (k : KeyCode) (env : Env),
        app.mode = AppMode.SyscallMonitoring → app.filter_mode = true →
        (k = KeyCode.enter ∨ k = KeyCode.esc) →
        step matcher app (.key k) env =
          .ok { app with filter_mode := false, syscall_filter := [] })
    ∧ ∀ (app : App) (env : Env) (buf : List Str),
        app.mode = AppMode.SyscallMonitoring → app.filter_mode = false →
        app.strace_receiver = some buf → env.childExited = false →
        (tickStep app env).unique_syscalls
            = (ingestLines (app.unique_syscalls, app.syscall_log)
                (buf ++ env.newLines)).1
        ∧ (tickStep app env).syscall_log
            = (ingestLines (app.unique_syscalls, app.syscall_log)
                (buf ++ env.newLines)).2
        ∧ (tickStep app env).strace_receiver = some [] := by
  refine ⟨?_, ?_, ?_⟩
  · intro envs app buf h1 h2 h3 h4
    rw [ticks_filter_active envs app buf h1 h2 h3 h4]
    exact ⟨rfl, rfl, rfl⟩
  · intro matcher app k env h1 h2 hk
    rcases hk with rfl | rfl <;> simp [step, keyStep, filterKey, h1, h2]
  · intro app env buf h1 h2 h3 h4
    rw [tick_ingests app env buf h1 h2 h3 h4]
    exact ⟨rfl, rfl, rfl⟩

/-- Witness for C8: one filter-mode tick on the concrete state leaves the
set and log unchanged and keeps the (empty) buffer plus arrivals. -/
theorem C8_witness :
    (ticks appFilterActive [envNil]).unique_syscalls
        = appFilterActive.unique_syscalls
    ∧ (ticks appFilterActive [envNil]).syscall_log
        = appFilterActive.syscall_log
    ∧ (ticks appFilterActive [envNil]).strace_receiver
        = some ([] ++ (([envNil].map Env.newLines).flatten)) :=
  C8_filter_pauses_ingestion.1 [envNil] appFilterActive [] rfl rfl rfl
    (by intro e he
        rw [List.mem_singleton] at he
        subst he
        rfl)

lemma sessionInv_congr {a b : App}
    (hmode : b.mode = a.mode)
    (hchild : b.strace_child = a.strace_child)
    (hrecv : b.strace_receiver = a.strace_receiver)
    (hlive : b.liveSubprocs = a.liveSubprocs)
    (hI : SessionInv a) : SessionInv b := by
  obtain ⟨h1, h2, h3⟩ := hI
  unfold SessionInv
  rw [hmode, hchild, hrecv, hlive]
  exact ⟨h1, h2, h3⟩

lemma update_procs_fields (app : App) :
    (update_filtered_processes app).mode = app.mode
    ∧ (update_filtered_processes app).strace_child = app.strace_child
    ∧ (update_filtered_processes app).strace_receiver = app.strace_receiver
    ∧ (update_filtered_processes app).liveSubprocs = app.liveSubprocs
    ∧ (update_filtered_processes app).processes = app.processes :=
  ⟨rfl, rfl, rfl, rfl, rfl⟩

lemma update_syscalls_fields (matcher : Matcher) (app : App) :
    (update_filtered_syscalls matcher app).mode = app.mode
    ∧ (update_filtered_syscalls matcher app).strace_child = app.strace_child
    ∧ (update_filtered_syscalls matcher app).strace_receiver
        = app.strace_receiver
    ∧ (update_filtered_syscalls matcher app).liveSubprocs
        = app.liveSubprocs := by
  unfold update_filtered_syscalls
  split <;> exact ⟨rfl, rfl, rfl, rfl⟩

lemma sessionInv_teardown (mid : App) (env : Env)
    (hc : mid.strace_child = some ())
    (hl : mid.liveSubprocs = 1) :
    SessionInv (teardownToSelection mid env) := by
  unfold SessionInv teardownToSelection stop_strace update_filtered_processes
  simp [hc, hl]

lemma teardown_fields (mid : App) (env : Env) :
    (teardownToSelection mid env).mode = AppMode.ProcessSelection
    ∧ (teardownToSelection mid env).strace_child = none
    ∧ (teardownToSelection mid env).strace_receiver = none
    ∧ (teardownToSelection mid env).processes = env.newProcs :=
  ⟨rfl, rfl, rfl, rfl⟩

lemma tick_exit_filter (app : App) (env : Env) (buf : List Str)
    (h1 : app.mode = AppMode.SyscallMonitoring)
    (h2 : app.filter_mode = true)
    (h3 : app.strace_receiver = some buf)
    (hc : app.strace_child = some ())
    (h4 : env.childExited = true) :
    tickStep app env =
      teardownToSelection
        { app with
          strace_receiver := some (buf ++ env.newLines) } env := by
  unfold tickStep arriveLines drainIngest checkExit
  rw [h3]
  simp [h1, h2, hc, h4]

lemma tick_exit_ingest (app : App) (env : Env) (buf : List Str)
    (h1 : app.mode = AppMode.SyscallMonitoring)
    (h2 : app.filter_mode = false)
    (h3 : app.strace_receiver = some buf)
    (hc : app.strace_child = some ())
    (h4 : env.childExited = true) :
    tickStep app env =
      teardownToSelection
        { app with
          unique_syscalls :=
            (ingestLines (app.unique_syscalls, app.syscall_log)
              (buf ++ env.newLines)).1,
          syscall_log :=
            (ingestLines (app.unique_syscalls, app.syscall_log)
              (buf ++ env.newLines)).2,
          strace_receiver := some [] } env := by
  unfold tickStep arriveLines drainIngest checkExit
  rw [h3]
  simp [h1, h2, hc, h4]

lemma sessionInv_init (procs : List ProcessInfo) :
    SessionInv (initApp procs) := by
  refine ⟨fun _ => ⟨rfl, rfl⟩, fun hmm => ?_, rfl⟩
  simp [initApp] at hmm

lemma sessionInv_selection {b : App}
    (hmode : b.mode = AppMode.ProcessSelection)
    (hchild : b.strace_child = none)
    (hrecv : b.strace_receiver = none)
    (hlive : b.liveSubprocs = 0) : SessionInv b := by
  refine ⟨fun _ => ⟨hchild, hrecv⟩, fun hmm => ?_, ?_⟩
  · rw [hmode] at hmm
    exact AppMode.noConfusion hmm
  · rw [hlive, hchild]
    rfl

lemma sessionInv_monitoring {b : App}
    (hmode : b.mode = AppMode.SyscallMonitoring)
    (hchild : b.strace_child = some ())
    (hrecv : ∃ buf, b.strace_receiver = some buf)
    (hlive : b.liveSubprocs = 1) : SessionInv b := by
  refine ⟨fun hmm => ?_, fun _ => ⟨hchild, hrecv⟩, ?_⟩
  · rw [hmode] at hmm
    exact AppMode.noConfusion hmm
  · rw [hlive, hchild]
    rfl

lemma sessionInv_step {matcher : Matcher} {app : App} {ev : Event}
    {env : Env} {app' : App} (hInv : SessionInv app)
    (h : step matcher app ev env = .ok app') : SessionInv app' := by
  obtain ⟨hSel, hMon, hLive⟩ := hInv
  cases ev with
  | tick =>
    have happ' : tickStep app env = app' := by
      simpa [step] using h
    subst happ'
    cases hm : app.mode with
    | ProcessSelection =>
      obtain ⟨hc, hr⟩ := hSel hm
      rw [tick_selection app env hm hr]
      exact ⟨hSel, hMon, hLive⟩
    | SyscallMonitoring =>
      obtain ⟨hc, buf, hr⟩ := hMon hm
      have hl1 : app.liveSubprocs = 1 := by rw [hLive, hc]; rfl
      by_cases hf : app.filter_mode
      · by_cases he : env.childExited
        · rw [tick_exit_filter app env buf hm hf hr hc he]
          exact sessionInv_teardown _ env hc hl1
        · rw [tick_filter_active app env buf hm hf hr (by simpa using he)]
          exact sessionInv_monitoring hm hc ⟨_, rfl⟩ hl1
      · have hf' : app.filter_mode = false := by simpa using hf
        by_cases he : env.childExited
        · rw [tick_exit_ingest app env buf hm hf' hr hc he]
          exact sessionInv_teardown _ env hc hl1
        · rw [tick_ingests app env buf hm hf' hr (by simpa using he)]
          exact sessionInv_monitoring hm hc ⟨[], rfl⟩ hl1
  | key k =>
    cases hm : app.mode with
    | ProcessSelection =>
      obtain ⟨hc, hr⟩ := hSel hm
      have hl0 : app.liveSubprocs = 0 := by rw [hLive, hc]; rfl
      have hsel : selectionKey app k env = .ok app' := by
        simpa [step, keyStep, hm] using h
      cases k with
      | char c =>
        by_cases hcq : c = 'q'
        · rw [hcq] at hsel
          simp [selectionKey] at hsel
        · simp only [selectionKey] at hsel
          rw [if_neg hcq] at hsel
          simp only [StepResult.ok.injEq] at hsel
          subst hsel
          exact sessionInv_selection hm hc hr hl0
      | backspace =>
        simp only [selectionKey, StepResult.ok.injEq] at hsel
        subst hsel
        exact sessionInv_selection hm hc hr hl0
      | down =>
        simp only [selectionKey, StepResult.ok.injEq] at hsel
        subst hsel
        split
        · exact sessionInv_selection hm hc hr hl0
        · exact ⟨hSel, hMon, hLive⟩
      | up =>
        simp only [selectionKey, StepResult.ok.injEq] at hsel
        subst hsel
        split
        · exact sessionInv_selection hm hc hr hl0
        · exact ⟨hSel, hMon, hLive⟩
      | enter =>
        simp only [selectionKey] at hsel
        by_cases he : app.filtered_processes.isEmpty
        · rw [if_pos he] at hsel
          simp only [StepResult.ok.injEq] at hsel
          subst hsel
          exact ⟨hSel, hMon, hLive⟩
        · rw [if_neg he] at hsel
          cases hg : app.filtered_processes[app.selected_process]? with
          | none =>
            rw [hg] at hsel
            exact absurd hsel (by simp)
          | some proc =>
            rw [hg] at hsel
            by_cases hs : env.spawnOk
            · simp only [start_strace, hs, if_pos, StepResult.ok.injEq]
                at hsel
              subst hsel
              exact sessionInv_monitoring rfl rfl ⟨[], rfl⟩ (by simp [hl0])
            · simp only [start_strace] at hsel
              rw [if_neg hs] at hsel
              exact absurd hsel (by simp)
      | esc =>
        simp only [selectionKey, StepResult.ok.injEq] at hsel
        subst hsel
        exact ⟨hSel, hMon, hLive⟩
      | other =>
        simp only [selectionKey, StepResult.ok.injEq] at hsel
        subst hsel
        exact ⟨hSel, hMon, hLive⟩
    | SyscallMonitoring =>
      obtain ⟨hc, buf, hr⟩ := hMon hm
      have hl1 : app.liveSubprocs = 1 := by rw [hLive, hc]; rfl
      by_cases hf : app.filter_mode
      · have hfil : filterKey matcher app k = .ok app' := by
          simpa [step, keyStep, hm, hf] using h
        cases k with
        | char c =>
          simp only [filterKey, StepResult.ok.injEq] at hfil
          subst hfil
          have hfld := update_syscalls_fields matcher
            { app with syscall_filter := app.syscall_filter ++ [c] }
          exact sessionInv_monitoring (by rw [hfld.1]; exact hm)
            (by rw [hfld.2.1]; exact hc)
            ⟨buf, by rw [hfld.2.2.1]; exact hr⟩
            (by rw [hfld.2.2.2]; exact hl1)
        | backspace =>
          simp only [filterKey, StepResult.ok.injEq] at hfil
          subst hfil
          have hfld := update_syscalls_fields matcher
            { app with syscall_filter := app.syscall_filter.dropLast }
          exact sessionInv_monitoring (by rw [hfld.1]; exact hm)
            (by rw [hfld.2.1]; exact hc)
            ⟨buf, by rw [hfld.2.2.1]; exact hr⟩
            (by rw [hfld.2.2.2]; exact hl1)
        | enter =>
          simp only [filterKey, StepResult.ok.injEq] at hfil
          subst hfil
          exact sessionInv_monitoring hm hc ⟨buf, hr⟩ hl1
        | esc =>
          simp only [filterKey, StepResult.ok.injEq] at hfil
          subst hfil
          exact sessionInv_monitoring hm hc ⟨buf, hr⟩ hl1
        | up =>
          simp only [filterKey, StepResult.ok.injEq] at hfil
          subst hfil
          exact ⟨hSel, hMon, hLive⟩
        | down =>
          simp only [filterKey, StepResult.ok.injEq] at hfil
          subst hfil
          exact ⟨hSel, hMon, hLive⟩
        | other =>
          simp only [filterKey, StepResult.ok.injEq] at hfil
          subst hfil
          exact ⟨hSel, hMon, hLive⟩
      · have hliv : liveKey matcher app k env = .ok app' := by
          simpa [step, keyStep, hm, hf] using h
        cases k with
        | char c =>
          simp only [liveKey] at hliv
          by_cases hq : c = 'q' ∨ c = 'b'
          · rw [if_pos hq] at hliv
            simp only [StepResult.ok.injEq] at hliv
            subst hliv
            exact sessionInv_teardown app env hc hl1
          · rw [if_neg hq] at hliv
            by_cases hk2 : c = 'k'
            · rw [if_pos hk2] at hliv
              simp only [StepResult.ok.injEq] at hliv
              subst hliv
              exact sessionInv_teardown app env hc hl1
            · rw [if_neg hk2] at hliv
              by_cases hk3 : c = 'f'
              · rw [if_pos hk3] at hliv
                simp only [StepResult.ok.injEq] at hliv
                subst hliv
                have hfld := update_syscalls_fields matcher
                  { app with filter_mode := true }
                exact sessionInv_monitoring (by rw [hfld.1]; exact hm)
                  (by rw [hfld.2.1]; exact hc)
                  ⟨buf, by rw [hfld.2.2.1]; exact hr⟩
                  (by rw [hfld.2.2.2]; exact hl1)
              · rw [if_neg hk3] at hliv
                simp only [StepResult.ok.injEq] at hliv
                subst hliv
                exact ⟨hSel, hMon, hLive⟩
        | backspace =>
          simp only [liveKey, StepResult.ok.injEq] at hliv
          subst hliv
          exact ⟨hSel, hMon, hLive⟩
        | up =>
          simp only [liveKey, StepResult.ok.injEq] at hliv
          subst hliv
          exact ⟨hSel, hMon, hLive⟩
        | down =>
          simp only [liveKey, StepResult.ok.injEq] at hliv
          subst hliv
          exact ⟨hSel, hMon, hLive⟩
        | enter =>
          simp only [liveKey, StepResult.ok.injEq] at hliv
          subst hliv
          exact ⟨hSel, hMon, hLive⟩
        | esc =>
          simp only [liveKey, StepResult.ok.injEq] at hliv
          subst hliv
          exact ⟨hSel, hMon, hLive⟩
        | other =>
          simp only [liveKey, StepResult.ok.injEq] at hliv
          subst hliv
          exact ⟨hSel, hMon, hLive⟩

lemma reachable_sessionInv {matcher : Matcher} {app : App}
    (h : Reachable matcher app) : SessionInv app := by
  induction h with
  | start procs => exact sessionInv_init procs
  | next app ev env app' hr hstep ih => exact sessionInv_step ih hstep

/-- C7: in every reachable state at most one tracing subprocess is alive
(the ghost count is at most one) and the child handle and receiver exist
together, so at most one coherent Trace Session exists; after any back,
kill or target-exit transition the session is cleared (no child handle,
no receiver retained) and the process list equals the environment's fresh
snapshot. -/
theorem C7_single_session_teardown (matcher : Matcher) (app : App)
    (h : Reachable matcher app) :
    (app.liveSubprocs ≤ 1
     ∧ (app.strace_child.isSome ↔ app.strace_receiver.isSome))
    ∧ (∀ (k : KeyCode) (env : Env) (app' : App),
        app.mode = AppMode.SyscallMonitoring → app.filter_mode = false →
        (k = KeyCode.char 'q' ∨ k = KeyCode.char 'b'
          ∨ k = KeyCode.char 'k') →
        step matcher app (.key k) env = .ok app' →
        app'.strace_child = none ∧ app'.strace_receiver = none
          ∧ app'.processes = env.newProcs)
    ∧ (∀ (env : Env) (app' : App),
        app.mode = AppMode.SyscallMonitoring → env.childExited = true →
        step matcher app .tick env = .ok app' →
        app'.strace_child = none ∧ app'.strace_receiver = none
          ∧ app'.processes = env.newProcs) := by
  obtain ⟨hSel, hMon, hLive⟩ := reachable_sessionInv h
  refine ⟨⟨?_, ?_⟩, ?_, ?_⟩
  · rw [hLive]
    split <;> simp
  · cases hmode : app.mode with
    | ProcessSelection =>
      obtain ⟨hc, hr⟩ := hSel hmode
      rw [hc, hr]
      exact Iff.rfl
    | SyscallMonitoring =>
      obtain ⟨hc, buf, hr⟩ := hMon hmode
      rw [hc, hr]
      simp
  · intro k env app' hmode hf hk hstep
    have hliv : liveKey matcher app k env = .ok app' := by
      simpa [step, keyStep, hmode, hf] using hstep
    have hteardown : app' = teardownToSelection app env := by
      rcases hk with rfl | rfl | rfl
      · simp [liveKey] at hliv
        exact hliv.symm
      · simp [liveKey] at hliv
        exact hliv.symm
      · simp [liveKey] at hliv
        exact hliv.symm
    subst hteardown
    exact ⟨rfl, rfl, rfl⟩
  · intro env app' hmode he hstep
    obtain ⟨hc, buf, hr⟩ := hMon hmode
    have htick : tickStep app env = app' := by
      simpa [step] using hstep
    by_cases hf : app.filter_mode
    · rw [tick_exit_filter app env buf hmode hf hr hc he] at htick
      subst htick
      exact ⟨rfl, rfl, rfl⟩
    · have hf' : app.filter_mode = false := by simpa using hf
      rw [tick_exit_ingest app env buf hmode hf' hr hc he] at htick
      subst htick
      exact ⟨rfl, rfl, rfl⟩

/-- Witness for C7: the session bound evaluated at the initial state. -/
theorem C7_witness :
    (initApp []).liveSubprocs ≤ 1
    ∧ ((initApp []).strace_child.isSome
        ↔ (initApp []).strace_receiver.isSome) :=
  (C7_single_session_teardown noMatcher (initApp [])
    (Reachable.start [])).1
